import Mathlib

set_option maxRecDepth 8192

/-!
Verification of the secure-file-drop streaming hasher.

This file shallowly embeds the two C translation units of the repository:
`src/native/sfd_hash.c` (the Hasher: `sfd_hex_encode_lower` and
`sfd_sha256_file`) and `src/native/sfd_hash_cli.c` (the CLI driver `main`).

Effectful parts are modelled by explicit state passing: a `FileModel`
describes what `fopen`/`fread`/`feof`/`ferror` observe on the stream, and a
`HashEnv` describes which calls into the external digest primitive (OpenSSL
EVP) succeed. The digest primitive itself is the standard SHA-256
(FIPS 180-4), given here as an executable reference definition `sha256`.
-/

namespace SFD

/-! ## Reference SHA-256 (FIPS 180-4), over byte lists -/

/-- Truncation to a 32-bit word. -/
def w32 (x : Nat) : Nat := x % 4294967296

/-- Right rotation of a 32-bit word. -/
def rotr (n x : Nat) : Nat := w32 ((x >>> n) ||| (x <<< (32 - n)))

/-- Bitwise complement of a 32-bit word. -/
def bnot32 (x : Nat) : Nat := x ^^^ 4294967295

def ch (x y z : Nat) : Nat := (x &&& y) ^^^ (bnot32 x &&& z)

def maj (x y z : Nat) : Nat := (x &&& y) ^^^ (x &&& z) ^^^ (y &&& z)

def bigSigma0 (x : Nat) : Nat := rotr 2 x ^^^ rotr 13 x ^^^ rotr 22 x

def bigSigma1 (x : Nat) : Nat := rotr 6 x ^^^ rotr 11 x ^^^ rotr 25 x

def smallSigma0 (x : Nat) : Nat := rotr 7 x ^^^ rotr 18 x ^^^ (x >>> 3)

def smallSigma1 (x : Nat) : Nat := rotr 17 x ^^^ rotr 19 x ^^^ (x >>> 10)

/-- The 64 SHA-256 round constants. -/
def K256 : List Nat :=
  [1116352408, 1899447441, 3049323471, 3921009573,
   961987163, 1508970993, 2453635748, 2870763221,
   3624381080, 310598401, 607225278, 1426881987,
   1925078388, 2162078206, 2614888103, 3248222580,
   3835390401, 4022224774, 264347078, 604807628,
   770255983, 1249150122, 1555081692, 1996064986,
   2554220882, 2821834349, 2952996808, 3210313671,
   3336571891, 3584528711, 113926993, 338241895,
   666307205, 773529912, 1294757372, 1396182291,
   1695183700, 1986661051, 2177026350, 2456956037,
   2730485921, 2820302411, 3259730800, 3345764771,
   3516065817, 3600352804, 4094571909, 275423344,
   430227734, 506948616, 659060556, 883997877,
   958139571, 1322822218, 1537002063, 1747873779,
   1955562222, 2024104815, 2227730452, 2361852424,
   2428436474, 2756734187, 3204031479, 3329325298]

/-- Working state of the SHA-256 compression function. -/
structure Sha256State where
  a : Nat
  b : Nat
  c : Nat
  d : Nat
  e : Nat
  f : Nat
  g : Nat
  h : Nat
deriving DecidableEq

/-- Initial hash value H(0). -/
def initState : Sha256State :=
  ⟨1779033703, 3144134277, 1013904242, 2773480762,
   1359893119, 2600822924, 528734635, 1541459225⟩

/-- One round of the compression function with round constant `kt` and
message-schedule word `wt`. -/
def roundFn (st : Sha256State) (kt wt : Nat) : Sha256State :=
  let t1 := w32 (st.h + bigSigma1 st.e + ch st.e st.f st.g + kt + wt)
  let t2 := w32 (bigSigma0 st.a + maj st.a st.b st.c)
  ⟨w32 (t1 + t2), st.a, st.b, st.c, w32 (st.d + t1), st.e, st.f, st.g⟩

/-- Big-endian 32-bit words from a byte list (four bytes per word). -/
def wordsOfBytes : List Nat → List Nat
  | b0 :: b1 :: b2 :: b3 :: rest =>
      (b0 * 16777216 + b1 * 65536 + b2 * 256 + b3) :: wordsOfBytes rest
  | _ => []

/-- Extend the 16 message words by `k` more schedule words. -/
def extendSchedule (w : List Nat) : Nat → List Nat
  | 0 => w
  | k + 1 =>
      extendSchedule
        (w ++ [w32 (smallSigma1 (w.getD (w.length - 2) 0) + w.getD (w.length - 7) 0 +
                    smallSigma0 (w.getD (w.length - 15) 0) + w.getD (w.length - 16) 0)]) k

/-- Process one 64-byte block. -/
def compressBlock (st : Sha256State) (block : List Nat) : Sha256State :=
  let w := extendSchedule (wordsOfBytes block) 48
  let r := (K256.zip w).foldl (fun s p => roundFn s p.1 p.2) st
  ⟨w32 (st.a + r.a), w32 (st.b + r.b), w32 (st.c + r.c), w32 (st.d + r.d),
   w32 (st.e + r.e), w32 (st.f + r.f), w32 (st.g + r.g), w32 (st.h + r.h)⟩

/-- The eight bytes of a 64-bit length field, big endian. -/
def bytesOf64BE (n : Nat) : List Nat :=
  [(n >>> 56) % 256, (n >>> 48) % 256, (n >>> 40) % 256, (n >>> 32) % 256,
   (n >>> 24) % 256, (n >>> 16) % 256, (n >>> 8) % 256, n % 256]

/-- SHA-256 padding: append 0x80, zeros to 56 mod 64, then the bit length. -/
def sha256Pad (msg : List Nat) : List Nat :=
  msg ++ [128] ++ List.replicate ((119 - msg.length % 64) % 64) 0 ++
    bytesOf64BE (8 * msg.length)

/-- Split a byte list into 64-byte blocks, structurally recursing on a fuel
that bounds the number of blocks. With `fuel ≥ l.length` the fuel never runs
out, since every step drops at least one element of a nonempty list. -/
def toBlocksAux : Nat → List Nat → List (List Nat)
  | _, [] => []
  | 0, _ :: _ => []
  | fuel + 1, l => l.take 64 :: toBlocksAux fuel (l.drop 64)

/-- Split a byte list into 64-byte blocks. -/
def toBlocks (l : List Nat) : List (List Nat) := toBlocksAux l.length l

/-- Big-endian bytes of one 32-bit word. -/
def word32Bytes (w : Nat) : List Nat :=
  [(w >>> 24) &&& 255, (w >>> 16) &&& 255, (w >>> 8) &&& 255, w &&& 255]

/-- SHA-256 of a byte list: 32 output bytes. -/
def sha256 (msg : List Nat) : List Nat :=
  let st := (toBlocks (sha256Pad msg)).foldl compressBlock initState
  word32Bytes st.a ++ word32Bytes st.b ++ word32Bytes st.c ++ word32Bytes st.d ++
  word32Bytes st.e ++ word32Bytes st.f ++ word32Bytes st.g ++ word32Bytes st.h

/-- SHA-256 of the empty input, as 32 bytes
(`e3b0c44298fc1c149afbf4c8996fb92427ae41e4649b934ca495991b7852b855`). -/
def sha256EmptyDigest : List Nat :=
  [0xe3, 0xb0, 0xc4, 0x42, 0x98, 0xfc, 0x1c, 0x14, 0x9a, 0xfb, 0xf4, 0xc8,
   0x99, 0x6f, 0xb9, 0x24, 0x27, 0xae, 0x41, 0xe4, 0x64, 0x9b, 0x93, 0x4c,
   0xa4, 0x95, 0x99, 0x1b, 0x78, 0x52, 0xb8, 0x55]

/-- FIPS 180-4 test vector: the digest of the empty message. -/
theorem sha256_empty_vector : sha256 [] = sha256EmptyDigest := by decide

/-- FIPS 180-4 test vector: the digest of the one-byte message "a". -/
theorem sha256_a_vector : sha256 [0x61] =
    [0xca, 0x97, 0x81, 0x12, 0xca, 0x1b, 0xbd, 0xca, 0xfa, 0xc2, 0x31, 0xb3,
     0x9a, 0x23, 0xdc, 0x4d, 0xa7, 0x86, 0xef, 0xf8, 0x14, 0x7c, 0x4e, 0x72,
     0xb9, 0x80, 0x77, 0x85, 0xaf, 0xee, 0x48, 0xbb] := by decide

/-! ## `sfd_hex_encode_lower` (src/native/sfd_hash.c, lines 9-16)

The C routine writes, for each input byte, `hex[(b >> 4) & 0x0F]` then
`hex[b & 0x0F]` into the output buffer, and a NUL terminator at index
`2 * len`. We model the written buffer as a `List Char` of length
`2 * len + 1`. -/

/-- The C lookup table `"0123456789abcdef"`. -/
def hexTable : List Char := "0123456789abcdef".toList

/-- The buffer written by `sfd_hex_encode_lower`: two hex characters per byte,
high nibble first, then the NUL terminator. -/
def sfd_hex_encode_lower (bytes : List Nat) : List Char :=
  (bytes.flatMap fun b => [hexTable.getD ((b >>> 4) &&& 15) ' ', hexTable.getD (b &&& 15) ' ']) ++
    [Char.ofNat 0]

/-- Modelled from the spec: "representation of each byte as two characters
from `0-9a-f`, high nibble first" — high nibble `b / 16`, low nibble
`b % 16`, no separators, prefix, or suffix. For comparison with the code's
`sfd_hex_encode_lower`. -/
def hexSpecEncode (bytes : List Nat) : List Char :=
  bytes.flatMap fun b => [hexTable.getD (b / 16) ' ', hexTable.getD (b % 16) ' ']

/-! ## `sfd_sha256_file` (src/native/sfd_hash.c, lines 18-84)

The stream behind `FILE *f` is modelled by `FileModel`: `openOk` is whether
`fopen(path, "rb")` succeeds, `content` the bytes `fread` will deliver in
order, and `readErr` whether, once the bytes are exhausted, the stream ends
in `ferror` (a read fault) instead of `feof`. With C stream semantics each
`fread(buf, 1, 65536, f)` returns `min(65536, remaining)` bytes, and a short
return happens exactly when EOF or the error is reached on that call.

`HashEnv` models the external EVP digest primitive: whether
`EVP_MD_CTX_new` returns non-NULL, whether `EVP_DigestInit_ex` returns 1,
whether the i-th `EVP_DigestUpdate` call returns 1, whether
`EVP_DigestFinal_ex` returns 1, and the `md_len` it reports. When the
primitive succeeds it computes standard SHA-256 of the fed bytes. -/

/-- Observable behaviour of the stream opened from the file. -/
structure FileModel where
  openOk : Bool
  content : List Nat
  readErr : Bool

/-- Behaviour of the external EVP digest primitive. -/
structure HashEnv where
  ctxNewOk : Bool
  initOk : Bool
  updateOk : Nat → Bool
  finalOk : Bool
  finalLen : Nat

/-- The staging buffer size: `unsigned char buf[64 * 1024]`. -/
def SFD_BUF_SIZE : Nat := 64 * 1024

/-- `SFD_SHA256_LEN` from sfd_hash.h. -/
def SFD_SHA256_LEN : Nat := 32

/-- Outcome of the `while (1)` read loop of `sfd_sha256_file`: either the
loop breaks at EOF (`done fed count`, with `fed` the bytes fed to the digest
context and `count` the accumulated `*out_bytes`), or the function returns
early from inside the loop (`fail rc fed count`). -/
inductive LoopOut where
  | done : List Nat → Nat → LoopOut
  | fail : Nat → List Nat → Nat → LoopOut
deriving DecidableEq

/-- One `fread` call and the loop body, structurally recursing on a fuel
that counts the remaining read calls; `readLoop` below supplies exact fuel,
so the fuel-0 branch is unreachable. Arguments: fuel, error flag of the
stream, index of the next `EVP_DigestUpdate` call, bytes fed so far,
`*out_bytes` so far, bytes the stream has yet to deliver. -/
def readLoopF (env : HashEnv) : Nat → Bool → Nat → List Nat → Nat → List Nat → LoopOut
  | 0, _, _, fed, count, _ => .fail 3 fed count
  | fuel + 1, e, i, fed, count, remaining =>
    if SFD_BUF_SIZE ≤ remaining.length then
      -- full read: n = sizeof(buf), no flag check (n is not < sizeof(buf))
      if env.updateOk i then
        readLoopF env fuel e (i + 1) (fed ++ remaining.take SFD_BUF_SIZE)
          (count + SFD_BUF_SIZE) (remaining.drop SFD_BUF_SIZE)
      else .fail 3 fed count
    else if 0 < remaining.length then
      -- short read with n > 0: update and count, then feof/ferror check
      if env.updateOk i then
        if e then .fail 2 (fed ++ remaining) (count + remaining.length)
        else .done (fed ++ remaining) (count + remaining.length)
      else .fail 3 fed count
    else
      -- read returned 0: only the feof/ferror check runs
      if e then .fail 2 fed count else .done fed count

/-- The read loop of `sfd_sha256_file` on a stream with `remaining` bytes
left and error flag `e`. The loop makes at most
`remaining.length / SFD_BUF_SIZE + 1` read calls. -/
def readLoop (env : HashEnv) (e : Bool) (i : Nat) (fed : List Nat) (count : Nat)
    (remaining : List Nat) : LoopOut :=
  readLoopF env (remaining.length / SFD_BUF_SIZE + 1) e i fed count remaining

/-- Everything observable about one `sfd_sha256_file` call: the return code,
the last value written through `out_bytes` (`none` if never written), the
bytes written through `out_hash` (`none` if never written), and which
resource transitions happened. -/
structure HashResult where
  rc : Nat
  outBytes : Option Nat
  outHash : Option (List Nat)
  fopenCalled : Bool
  fileOpened : Bool
  fileClosed : Bool
  ctxNewCalled : Bool
  ctxAcquired : Bool
  ctxFreed : Bool
deriving DecidableEq

/-- Shallow embedding of `sfd_sha256_file`. The three booleans say whether
`path`, `out_hash`, `out_bytes` are NULL. -/
def sfd_sha256_file (pathNull outHashNull outBytesNull : Bool)
    (file : FileModel) (env : HashEnv) : HashResult :=
  if pathNull || outHashNull || outBytesNull then
    -- NULL-argument guard: return 1 before touching anything
    ⟨1, none, none, false, false, false, false, false, false⟩
  else if !file.openOk then
    -- *out_bytes = 0 has happened; fopen failed
    ⟨2, some 0, none, true, false, false, false, false, false⟩
  else if !env.ctxNewOk then
    -- EVP_MD_CTX_new returned NULL: fclose(f); return 3
    ⟨3, some 0, none, true, true, true, true, false, false⟩
  else if !env.initOk then
    -- EVP_DigestInit_ex failed: free ctx, fclose, return 3
    ⟨3, some 0, none, true, true, true, true, true, true⟩
  else
    match readLoop env file.readErr 0 [] 0 file.content with
    | .fail rc _ count =>
        -- early return from the loop: free ctx, fclose, return rc
        ⟨rc, some count, none, true, true, true, true, true, true⟩
    | .done fed count =>
        if !env.finalOk then
          -- EVP_DigestFinal_ex failed: free ctx, fclose, return 3
          ⟨3, some count, none, true, true, true, true, true, true⟩
        else if env.finalLen ≠ SFD_SHA256_LEN then
          -- ctx freed and file closed before the md_len check; return 3
          ⟨3, some count, none, true, true, true, true, true, true⟩
        else
          -- memcpy(out_hash, md, 32); return 0
          ⟨0, some count, some (sha256 fed), true, true, true, true, true, true⟩

/-! ## CLI driver `main` (src/native/sfd_hash_cli.c)

`prog` is `argv[0]`, `nargs` the number of positional arguments
(`argc - 1`). The driver calls `sfd_sha256_file` with non-NULL pointers. -/

/-- Result of one CLI run: exit status, bytes written to stdout, bytes
written to stderr. -/
structure CliResult where
  exitCode : Nat
  stdout : String
  stderr : String
deriving DecidableEq

/-- The `usage` helper: `fprintf(stderr, "Usage: %s <file-path>\n", prog)`. -/
def usage (prog : String) : String := "Usage: " ++ prog ++ " <file-path>\n"

/-- The failure arm of `main`: `rc == 2` reports the I/O error, any other
non-zero `rc` reports the hashing error. -/
def cliErrorBranch (rc : Nat) : CliResult :=
  if rc = 2 then ⟨2, "", "File I/O error\n"⟩ else ⟨3, "", "Hashing error\n"⟩

/-- The success line
`printf("{\"algorithm\":\"sha256\",\"hash\":\"%s\",\"bytes\":%llu}\n", hex, bytes)`. -/
def jsonLine (hex : String) (cnt : Nat) : String :=
  "\x7b\"algorithm\":\"sha256\",\"hash\":\"" ++ hex ++ "\",\"bytes\":" ++
    Nat.repr cnt ++ "\x7d\n"

/-- Shallow embedding of `main`. -/
def cliMain (prog : String) (nargs : Nat) (file : FileModel) (env : HashEnv) : CliResult :=
  if nargs ≠ 1 then ⟨1, "", usage prog⟩
  else
    let r := sfd_sha256_file false false false file env
    if r.rc ≠ 0 then cliErrorBranch r.rc
    else
      ⟨0, jsonLine (String.mk ((sfd_hex_encode_lower (r.outHash.getD [])).dropLast))
            (r.outBytes.getD 0), ""⟩

/-- A digest environment in which every primitive call succeeds. -/
def envOk : HashEnv := ⟨true, true, fun _ => true, true, 32⟩

/-- End-to-end check: hashing the one-byte file "a" through the CLI. -/
theorem cli_single_byte_run :
    cliMain "sfd" 1 ⟨true, [0x61], false⟩ envOk =
      ⟨0, "\x7b\"algorithm\":\"sha256\",\"hash\":\"ca978112ca1bbdcafac231b39a23dc4da786eff8147c4e72b9807785afee48bb\",\"bytes\":1\x7d\n", ""⟩ := by
  decide

/-- End-to-end check: an unopenable file reports the I/O error. -/
theorem cli_missing_file_run :
    cliMain "sfd" 1 ⟨false, [], false⟩ envOk = ⟨2, "", "File I/O error\n"⟩ := by decide

/-! ## Invariants of the read loop -/

/-- If the loop breaks at EOF, it has fed exactly the remaining stream bytes,
in order, and counted exactly their number; the stream had no error flag. -/
theorem readLoopF_done_eq (env : HashEnv) :
    ∀ (fuel : Nat) (e : Bool) (i : Nat) (fed : List Nat) (count : Nat)
      (remaining fed' : List Nat) (count' : Nat),
      readLoopF env fuel e i fed count remaining = .done fed' count' →
      fed' = fed ++ remaining ∧ count' = count + remaining.length ∧ e = false := by
  intro fuel
  induction fuel with
  | zero =>
    intro e i fed count remaining fed' count' hr
    simp [readLoopF] at hr
  | succ n ih =>
    intro e i fed count remaining fed' count' hr
    simp only [readLoopF] at hr
    split_ifs at hr with h1 h2 h3 h4 h5 h6
    · obtain ⟨hf, hc, he⟩ := ih _ _ _ _ _ _ _ hr
      refine ⟨?_, ?_, he⟩
      · rw [hf, List.append_assoc, List.take_append_drop]
      · rw [hc, List.length_drop]
        omega
    · obtain ⟨hf, hc⟩ := LoopOut.done.inj hr
      exact ⟨hf.symm, hc.symm, by simpa using h5⟩
    · have hrem : remaining = [] := List.length_eq_zero.mp (by omega)
      subst hrem
      obtain ⟨hf, hc⟩ := LoopOut.done.inj hr
      exact ⟨by simpa using hf.symm, by simpa using hc.symm, by simpa using h6⟩

/-- If the loop returns the I/O error code 2, the partial bytes of the
failing read were already fed and counted, and the stream had its error
flag set. -/
theorem readLoopF_fail2_eq (env : HashEnv) :
    ∀ (fuel : Nat) (e : Bool) (i : Nat) (fed : List Nat) (count : Nat)
      (remaining fed' : List Nat) (count' : Nat),
      readLoopF env fuel e i fed count remaining = .fail 2 fed' count' →
      fed' = fed ++ remaining ∧ count' = count + remaining.length ∧ e = true := by
  intro fuel
  induction fuel with
  | zero =>
    intro e i fed count remaining fed' count' hr
    simp [readLoopF] at hr
  | succ n ih =>
    intro e i fed count remaining fed' count' hr
    simp only [readLoopF] at hr
    split_ifs at hr with h1 h2 h3 h4 h5 h6
    · obtain ⟨hf, hc, he⟩ := ih _ _ _ _ _ _ _ hr
      refine ⟨?_, ?_, he⟩
      · rw [hf, List.append_assoc, List.take_append_drop]
      · rw [hc, List.length_drop]
        omega
    · simp at hr
    · obtain ⟨-, hf, hc⟩ := LoopOut.fail.inj hr
      exact ⟨hf.symm, hc.symm, h5⟩
    · simp at hr
    · have hrem : remaining = [] := List.length_eq_zero.mp (by omega)
      subst hrem
      obtain ⟨-, hf, hc⟩ := LoopOut.fail.inj hr
      exact ⟨by simpa using hf.symm, by simpa using hc.symm, h6⟩

/-- Early returns from the loop carry return code 2 or 3. -/
theorem readLoopF_fail_rc (env : HashEnv) :
    ∀ (fuel : Nat) (e : Bool) (i : Nat) (fed : List Nat) (count : Nat)
      (remaining fed' : List Nat) (rc count' : Nat),
      readLoopF env fuel e i fed count remaining = .fail rc fed' count' →
      rc = 2 ∨ rc = 3 := by
  intro fuel
  induction fuel with
  | zero =>
    intro e i fed count remaining fed' rc count' hr
    obtain ⟨h, -⟩ := LoopOut.fail.inj hr
    exact Or.inr h.symm
  | succ n ih =>
    intro e i fed count remaining fed' rc count' hr
    simp only [readLoopF] at hr
    split_ifs at hr with h1 h2 h3 h4 h5 h6
    · exact ih _ _ _ _ _ _ _ _ hr
    · exact Or.inr (LoopOut.fail.inj hr).1.symm
    · exact Or.inl (LoopOut.fail.inj hr).1.symm
    · exact Or.inr (LoopOut.fail.inj hr).1.symm
    · exact Or.inl (LoopOut.fail.inj hr).1.symm

/-- With a clean stream and a digest primitive whose updates all succeed,
the loop breaks at EOF having fed and counted the whole stream. The fuel
must exceed the number of full reads. -/
theorem readLoopF_complete (env : HashEnv) :
    ∀ (fuel : Nat) (i : Nat) (fed : List Nat) (count : Nat) (remaining : List Nat),
      (∀ j, env.updateOk j = true) → remaining.length < fuel * SFD_BUF_SIZE →
      readLoopF env fuel false i fed count remaining =
        .done (fed ++ remaining) (count + remaining.length) := by
  intro fuel
  induction fuel with
  | zero =>
    intro i fed count remaining hupd hlen
    simp at hlen
  | succ n ih =>
    intro i fed count remaining hupd hlen
    by_cases h1 : SFD_BUF_SIZE ≤ remaining.length
    · have hlen2 : (remaining.drop SFD_BUF_SIZE).length < n * SFD_BUF_SIZE := by
        simp only [List.length_drop, SFD_BUF_SIZE] at *
        omega
      have hrec := ih (i + 1) (fed ++ remaining.take SFD_BUF_SIZE) (count + SFD_BUF_SIZE)
        (remaining.drop SFD_BUF_SIZE) hupd hlen2
      simp only [readLoopF, hupd, if_pos h1, eq_self_iff_true, if_true, hrec,
        List.append_assoc, List.take_append_drop, List.length_drop]
      have heq : count + SFD_BUF_SIZE + (remaining.length - SFD_BUF_SIZE) =
          count + remaining.length := by omega
      rw [heq]
    · by_cases h3 : 0 < remaining.length
      · simp [readLoopF, hupd, h1, h3]
      · have hrem : remaining = [] := List.length_eq_zero.mp (by omega)
        subst hrem
        simp [readLoopF, SFD_BUF_SIZE]

/-- `readLoop`'s fuel is always sufficient. -/
theorem readLoop_complete (env : HashEnv) (i : Nat) (fed : List Nat) (count : Nat)
    (remaining : List Nat) (hupd : ∀ j, env.updateOk j = true) :
    readLoop env false i fed count remaining =
      .done (fed ++ remaining) (count + remaining.length) := by
  apply readLoopF_complete env _ i fed count remaining hupd
  have h1 := Nat.div_add_mod remaining.length SFD_BUF_SIZE
  have h2 : remaining.length % SFD_BUF_SIZE < SFD_BUF_SIZE :=
    Nat.mod_lt _ (by simp [SFD_BUF_SIZE])
  simp only [SFD_BUF_SIZE] at *
  omega

/-- `readLoopF_done_eq` at the exact fuel used by `sfd_sha256_file`. -/
theorem readLoop_done_eq (env : HashEnv) (e : Bool) (i : Nat) (fed : List Nat)
    (count : Nat) (remaining fed' : List Nat) (count' : Nat)
    (hr : readLoop env e i fed count remaining = .done fed' count') :
    fed' = fed ++ remaining ∧ count' = count + remaining.length ∧ e = false :=
  readLoopF_done_eq env _ e i fed count remaining fed' count' hr

/-- `readLoopF_fail2_eq` at the exact fuel used by `sfd_sha256_file`. -/
theorem readLoop_fail2_eq (env : HashEnv) (e : Bool) (i : Nat) (fed : List Nat)
    (count : Nat) (remaining fed' : List Nat) (count' : Nat)
    (hr : readLoop env e i fed count remaining = .fail 2 fed' count') :
    fed' = fed ++ remaining ∧ count' = count + remaining.length ∧ e = true :=
  readLoopF_fail2_eq env _ e i fed count remaining fed' count' hr

/-- `readLoopF_fail_rc` at the exact fuel used by `sfd_sha256_file`. -/
theorem readLoop_fail_rc (env : HashEnv) (e : Bool) (i : Nat) (fed : List Nat)
    (count : Nat) (remaining fed' : List Nat) (rc count' : Nat)
    (hr : readLoop env e i fed count remaining = .fail rc fed' count') :
    rc = 2 ∨ rc = 3 :=
  readLoopF_fail_rc env _ e i fed count remaining fed' rc count' hr

/-- An update failure on the first read call with data aborts the loop with
return code 3 and nothing counted. -/
theorem readLoop_update_fail (env : HashEnv) (e : Bool) (i : Nat) (fed : List Nat)
    (count : Nat) (remaining : List Nat) (hupd : env.updateOk i = false)
    (hne : remaining ≠ []) :
    readLoop env e i fed count remaining = .fail 3 fed count := by
  have hlen : 0 < remaining.length := List.length_pos.mpr hne
  unfold readLoop readLoopF
  rw [hupd]
  simp only [Bool.false_eq_true, if_false]
  split_ifs
  all_goals rfl

/-! ## Behaviour of `sfd_sha256_file` on the success path -/

/-- If `sfd_sha256_file` returns 0, it has written through `out_hash` the
SHA-256 of exactly the stream bytes in read order, and through `out_bytes`
their number. -/
theorem sfd_success_spec (pN hN bN : Bool) (file : FileModel) (env : HashEnv)
    (h : (sfd_sha256_file pN hN bN file env).rc = 0) :
    (sfd_sha256_file pN hN bN file env).outHash = some (sha256 file.content) ∧
    (sfd_sha256_file pN hN bN file env).outBytes = some file.content.length := by
  rcases hl : readLoop env file.readErr 0 [] 0 file.content with ⟨fed, cnt⟩ | ⟨rc, fed, cnt⟩
  · simp only [sfd_sha256_file, hl] at h ⊢
    split_ifs at h ⊢ with h1 h2 h3 h4 h5
    all_goals simp_all
    obtain ⟨hf, hc, -⟩ := readLoop_done_eq env file.readErr 0 [] 0 file.content fed cnt hl
    simp [hf, hc]
  · rcases readLoop_fail_rc env file.readErr 0 [] 0 file.content fed rc cnt hl with h2 | h3
    · subst h2
      simp only [sfd_sha256_file, hl] at h
      split_ifs at h
    · subst h3
      simp only [sfd_sha256_file, hl] at h
      split_ifs at h

/-! ## The hex encoder -/

/-- Every in-range lookup lands in the table. -/
theorem hexTable_getD_mem : ∀ n : Nat, n < 16 → hexTable.getD n ' ' ∈ hexTable := by
  decide

/-- On a byte, the C nibble extraction agrees with division and remainder:
`(b >> 4) & 0x0F` is the high nibble and `b & 0x0F` the low one. -/
theorem hex_nibbles : ∀ b : Nat, b < 256 → (b >>> 4) &&& 15 = b / 16 ∧ b &&& 15 = b % 16 := by
  decide

/-- The character part of the encoder, before the NUL. -/
theorem sfd_hex_core_length (bytes : List Nat) :
    (bytes.flatMap fun b =>
      [hexTable.getD ((b >>> 4) &&& 15) ' ', hexTable.getD (b &&& 15) ' ']).length =
      2 * bytes.length := by
  induction bytes with
  | nil => rfl
  | cons b bs ih =>
    simp only [List.flatMap_cons, List.length_append, List.length_cons, ih, List.length_nil]
    simp
    omega

/-- Every character the encoder emits (before the NUL) is a lowercase hex
digit, with no hypothesis on the bytes: the C code masks with `0x0F`. -/
theorem sfd_hex_chars (bytes : List Nat) :
    ∀ c ∈ (bytes.flatMap fun b =>
      [hexTable.getD ((b >>> 4) &&& 15) ' ', hexTable.getD (b &&& 15) ' ']), c ∈ hexTable := by
  intro c hc
  rw [List.mem_flatMap] at hc
  obtain ⟨b, -, hc⟩ := hc
  simp only [List.mem_cons, List.not_mem_nil, or_false] at hc
  rcases hc with hc | hc <;> subst hc <;>
    exact hexTable_getD_mem _ (Nat.lt_succ_of_le Nat.and_le_right)

/-- On genuine bytes the code encoder agrees with the spec-side encoder. -/
theorem sfd_hex_eq_spec (bytes : List Nat) (hb : ∀ b ∈ bytes, b < 256) :
    sfd_hex_encode_lower bytes = hexSpecEncode bytes ++ [Char.ofNat 0] := by
  have core : ∀ l : List Nat, (∀ b ∈ l, b < 256) →
      (l.flatMap fun b =>
        [hexTable.getD ((b >>> 4) &&& 15) ' ', hexTable.getD (b &&& 15) ' ']) =
        hexSpecEncode l := by
    intro l
    induction l with
    | nil => intro _; rfl
    | cons b bs ih =>
      intro h
      have hb0 : b < 256 := h b (List.mem_cons_self b bs)
      have hbs : ∀ x ∈ bs, x < 256 := fun x hx => h x (List.mem_cons_of_mem b hx)
      simp only [hexSpecEncode, List.flatMap_cons] at ih ⊢
      rw [(hex_nibbles b hb0).1, (hex_nibbles b hb0).2, ih hbs]
  unfold sfd_hex_encode_lower
  rw [core bytes hb]

/-- The digest always has exactly 32 bytes. -/
theorem sha256_length (msg : List Nat) : (sha256 msg).length = 32 := by
  simp [sha256, word32Bytes]

/-! ## Branch characterizations of the CLI driver -/

/-- Wrong argument count: the usage line and exit 1. -/
theorem cliMain_eq_usage (prog : String) (nargs : Nat) (file : FileModel) (env : HashEnv)
    (hn : nargs ≠ 1) : cliMain prog nargs file env = ⟨1, "", usage prog⟩ := by
  simp [cliMain, hn]

/-- A failing Hasher call sends `main` into the error arm. -/
theorem cliMain_eq_error (prog : String) (nargs : Nat) (file : FileModel) (env : HashEnv)
    (hn : nargs = 1) (hrc : (sfd_sha256_file false false false file env).rc ≠ 0) :
    cliMain prog nargs file env =
      cliErrorBranch (sfd_sha256_file false false false file env).rc := by
  subst hn
  simp [cliMain, hrc]

/-- A successful Hasher call makes `main` print the JSON line and exit 0. -/
theorem cliMain_eq_success (prog : String) (file : FileModel) (env : HashEnv)
    (hrc : (sfd_sha256_file false false false file env).rc = 0) :
    cliMain prog 1 file env =
      ⟨0, jsonLine (String.mk ((sfd_hex_encode_lower
            ((sfd_sha256_file false false false file env).outHash.getD [])).dropLast))
          ((sfd_sha256_file false false false file env).outBytes.getD 0), ""⟩ := by
  simp [cliMain, hrc]

/-- The error arm writes nothing to stdout and exits 2 or 3, never 0. -/
theorem cliErrorBranch_spec (rc : Nat) :
    (cliErrorBranch rc).stdout = "" ∧
    ((cliErrorBranch rc).exitCode = 2 ∨ (cliErrorBranch rc).exitCode = 3) ∧
    (cliErrorBranch rc).exitCode ≠ 0 := by
  unfold cliErrorBranch
  split_ifs <;> simp

/-- Dropping the NUL terminator recovers the character part. -/
theorem dropLastConcat (l : List Char) (x : Char) : (l ++ [x]).dropLast = l := by simp

/-- The length of a packed string is the length of its character list. -/
theorem stringMkLength (cs : List Char) : (String.mk cs).length = cs.length := by simp

/-! ## The claims -/

/-- C1: if `sfd_sha256_file` succeeds (returns 0) with digest `d` and byte
count `n`, then `n` equals the size of the file in bytes and `d` equals the
SHA-256 digest of the bytes of the file, computed over those bytes in read
order. -/
theorem hash_file_correct (file : FileModel) (env : HashEnv)
    (h : (sfd_sha256_file false false false file env).rc = 0) :
    (sfd_sha256_file false false false file env).outBytes = some file.content.length ∧
    (sfd_sha256_file false false false file env).outHash = some (sha256 file.content) :=
  ⟨(sfd_success_spec false false false file env h).2,
   (sfd_success_spec false false false file env h).1⟩

theorem hash_file_correct_witness :
    (sfd_sha256_file false false false ⟨true, [0x61], false⟩ envOk).rc = 0 ∧
    (sfd_sha256_file false false false ⟨true, [0x61], false⟩ envOk).outBytes =
      some [(0x61 : Nat)].length ∧
    (sfd_sha256_file false false false ⟨true, [0x61], false⟩ envOk).outHash =
      some (sha256 [0x61]) :=
  ⟨by decide,
   (hash_file_correct ⟨true, [0x61], false⟩ envOk (by decide)).1,
   (hash_file_correct ⟨true, [0x61], false⟩ envOk (by decide)).2⟩

/-- C2: every successful CLI run prints to standard output exactly one line,
the verbatim JSON record with the fields in the shown order, no spaces and
no trailing comma, whose hash field has 64 lowercase hex characters, and
exits with status 0. -/
theorem cli_success_shape (prog : String) (nargs : Nat) (file : FileModel) (env : HashEnv)
    (h : (cliMain prog nargs file env).exitCode = 0) :
    ∃ hex cnt, cliMain prog nargs file env = ⟨0, jsonLine hex cnt, ""⟩ ∧
      hex.length = 64 ∧ ∀ c ∈ hex.data, c ∈ hexTable := by
  by_cases hn : nargs = 1
  · by_cases hrc : (sfd_sha256_file false false false file env).rc = 0
    · subst hn
      obtain ⟨hh, hb⟩ := sfd_success_spec false false false file env hrc
      rw [cliMain_eq_success prog file env hrc, hh, hb]
      refine ⟨_, _, rfl, ?_, ?_⟩
      · have h32 := sha256_length file.content
        have hcore := sfd_hex_core_length (sha256 file.content)
        simp only [Option.getD_some]
        unfold sfd_hex_encode_lower
        rw [dropLastConcat, stringMkLength, hcore, h32]
      · intro c hc
        apply sfd_hex_chars ((some (sha256 file.content)).getD [])
        have hdata : (String.mk ((sfd_hex_encode_lower
            ((some (sha256 file.content)).getD [])).dropLast)).data =
            (sfd_hex_encode_lower ((some (sha256 file.content)).getD [])).dropLast := rfl
        rw [hdata] at hc
        unfold sfd_hex_encode_lower at hc
        simpa using hc
    · exfalso
      rw [cliMain_eq_error prog nargs file env hn hrc] at h
      exact absurd h (cliErrorBranch_spec _).2.2
  · exfalso
    rw [cliMain_eq_usage prog nargs file env hn] at h
    simp at h

theorem cli_success_shape_witness :
    (cliMain "sfd" 1 ⟨true, [], false⟩ envOk).exitCode = 0 ∧
    ∃ hex cnt, cliMain "sfd" 1 ⟨true, [], false⟩ envOk = ⟨0, jsonLine hex cnt, ""⟩ ∧
      hex.length = 64 ∧ ∀ c ∈ hex.data, c ∈ hexTable :=
  ⟨by decide, cli_success_shape "sfd" 1 ⟨true, [], false⟩ envOk (by decide)⟩

/-- C3: the CLI exit-code mapping: wrong argument count prints the usage
line to stderr and exits 1; an IoError (code 2) from the Hasher prints
`File I/O error` and exits 2; a HashingError (code 3) prints
`Hashing error` and exits 3; success exits 0. -/
theorem cli_exit_codes (prog : String) (nargs : Nat) (file : FileModel) (env : HashEnv) :
    (nargs ≠ 1 → cliMain prog nargs file env = ⟨1, "", usage prog⟩) ∧
    (nargs = 1 → (sfd_sha256_file false false false file env).rc = 2 →
      cliMain prog nargs file env = ⟨2, "", "File I/O error\n"⟩) ∧
    (nargs = 1 → (sfd_sha256_file false false false file env).rc = 3 →
      cliMain prog nargs file env = ⟨3, "", "Hashing error\n"⟩) ∧
    (nargs = 1 → (sfd_sha256_file false false false file env).rc = 0 →
      (cliMain prog nargs file env).exitCode = 0) := by
  refine ⟨fun hn => cliMain_eq_usage prog nargs file env hn,
    fun hn h2 => ?_, fun hn h3 => ?_, fun hn h0 => ?_⟩
  · rw [cliMain_eq_error prog nargs file env hn (by omega)]
    simp [cliErrorBranch, h2]
  · rw [cliMain_eq_error prog nargs file env hn (by omega)]
    simp [cliErrorBranch, h3]
  · subst hn
    rw [cliMain_eq_success prog file env h0]

theorem cli_exit_codes_witness :
    cliMain "sfd" 0 ⟨true, [], false⟩ envOk = ⟨1, "", usage "sfd"⟩ :=
  (cli_exit_codes "sfd" 0 ⟨true, [], false⟩ envOk).1 (by decide)

/-- C4: on every failing run standard output is empty and the exit code is
in 1, 2, 3; and the out_hash buffer is only written on the success
path of `sfd_sha256_file`. -/
theorem cli_failure_silent (prog : String) (nargs : Nat) (file : FileModel) (env : HashEnv)
    (pN hN bN : Bool) :
    ((cliMain prog nargs file env).exitCode ≠ 0 →
      (cliMain prog nargs file env).stdout = "" ∧
      ((cliMain prog nargs file env).exitCode = 1 ∨ (cliMain prog nargs file env).exitCode = 2 ∨
        (cliMain prog nargs file env).exitCode = 3)) ∧
    ((sfd_sha256_file pN hN bN file env).rc ≠ 0 →
      (sfd_sha256_file pN hN bN file env).outHash = none) := by
  constructor
  · intro h
    by_cases hn : nargs = 1
    · by_cases hrc : (sfd_sha256_file false false false file env).rc = 0
      · exfalso
        apply h
        subst hn
        rw [cliMain_eq_success prog file env hrc]
      · rw [cliMain_eq_error prog nargs file env hn hrc]
        obtain ⟨hs, ho, -⟩ := cliErrorBranch_spec (sfd_sha256_file false false false file env).rc
        exact ⟨hs, Or.inr ho⟩
    · rw [cliMain_eq_usage prog nargs file env hn]
      exact ⟨rfl, Or.inl rfl⟩
  · intro h
    rcases hl : readLoop env file.readErr 0 [] 0 file.content with ⟨fed, cnt⟩ | ⟨rc, fed, cnt⟩
    · simp only [sfd_sha256_file, hl] at h ⊢
      split_ifs at h ⊢ <;> simp_all
    · simp only [sfd_sha256_file, hl] at h ⊢
      split_ifs at h ⊢ <;> simp_all

theorem cli_failure_silent_witness :
    (cliMain "sfd" 2 ⟨true, [], false⟩ envOk).stdout = "" ∧
    (sfd_sha256_file false false false ⟨false, [], false⟩ envOk).outHash = none :=
  ⟨((cli_failure_silent "sfd" 2 ⟨true, [], false⟩ envOk false false false).1 (by decide)).1,
   (cli_failure_silent "sfd" 2 ⟨false, [], false⟩ envOk false false false).2 (by decide)⟩

/-- C5: on a byte array of length `len` the encoder writes exactly `2 * len`
characters drawn from 0-9a-f, each byte as two characters high nibble
first with no separators, prefix or suffix, and a NUL terminator at
position `2 * len`. -/
theorem hex_encode_correct (bytes : List Nat) (hb : ∀ b ∈ bytes, b < 256) :
    sfd_hex_encode_lower bytes = hexSpecEncode bytes ++ [Char.ofNat 0] ∧
    (sfd_hex_encode_lower bytes).length = 2 * bytes.length + 1 ∧
    (sfd_hex_encode_lower bytes).getD (2 * bytes.length) ' ' = Char.ofNat 0 ∧
    ∀ c ∈ (sfd_hex_encode_lower bytes).dropLast, c ∈ hexTable := by
  refine ⟨sfd_hex_eq_spec bytes hb, ?_, ?_, ?_⟩
  · have hcore := sfd_hex_core_length bytes
    unfold sfd_hex_encode_lower
    rw [List.length_append, hcore]
    rfl
  · have hlen := sfd_hex_core_length bytes
    unfold sfd_hex_encode_lower
    rw [← hlen]
    simp [List.getD_append_right]
  · intro c hc
    have hd : (sfd_hex_encode_lower bytes).dropLast =
        bytes.flatMap fun b =>
          [hexTable.getD ((b >>> 4) &&& 15) ' ', hexTable.getD (b &&& 15) ' '] := by
      unfold sfd_hex_encode_lower
      simp
    rw [hd] at hc
    exact sfd_hex_chars bytes c hc

theorem hex_encode_correct_witness :
    sfd_hex_encode_lower [0x00, 0xab, 0xff] =
      hexSpecEncode [0x00, 0xab, 0xff] ++ [Char.ofNat 0] ∧
    (sfd_hex_encode_lower [0x00, 0xab, 0xff]).length = 2 * 3 + 1 :=
  ⟨(hex_encode_correct [0x00, 0xab, 0xff] (by decide)).1,
   (hex_encode_correct [0x00, 0xab, 0xff] (by decide)).2.1⟩

/-- C6: the read loop uses a fixed 65,536-byte staging buffer; every read
returning `n > 0` bytes feeds exactly those `n` bytes into the digest and
adds `n` to the byte counter, never reordering, skipping or re-reading;
and when a partial read and an error occur on the same call, the partial
bytes are incorporated into the digest and the counter before the IoError
is reported. -/
theorem read_loop_streaming (env : HashEnv) (e : Bool) (i count : Nat)
    (fed remaining fed' : List Nat) (count' : Nat) :
    SFD_BUF_SIZE = 65536 ∧
    (readLoop env e i fed count remaining = .done fed' count' →
      fed' = fed ++ remaining ∧ count' = count + remaining.length) ∧
    (readLoop env e i fed count remaining = .fail 2 fed' count' →
      fed' = fed ++ remaining ∧ count' = count + remaining.length) ∧
    (remaining.length < SFD_BUF_SIZE → 0 < remaining.length → env.updateOk i = true →
      readLoop env true i fed count remaining =
        .fail 2 (fed ++ remaining) (count + remaining.length)) := by
  refine ⟨by norm_num [SFD_BUF_SIZE], fun h => ?_, fun h => ?_, fun hlt hpos hup => ?_⟩
  · obtain ⟨a, b, -⟩ := readLoop_done_eq env e i fed count remaining fed' count' h
    exact ⟨a, b⟩
  · obtain ⟨a, b, -⟩ := readLoop_fail2_eq env e i fed count remaining fed' count' h
    exact ⟨a, b⟩
  · have h1 : ¬ SFD_BUF_SIZE ≤ remaining.length := by omega
    unfold readLoop readLoopF
    rw [if_neg h1, if_pos hpos, hup]
    simp

theorem read_loop_streaming_witness :
    readLoop envOk true 0 [] 0 [0x61] = .fail 2 [0x61] 1 :=
  (read_loop_streaming envOk true 0 0 [] [0x61] [] 0).2.2.2 (by decide) (by decide) rfl

/-- C7: on an empty file the Hasher succeeds with byte count 0 and the
SHA-256 of the empty string, and the CLI emits the JSON line with hash
e3b0c44298fc1c149afbf4c8996fb92427ae41e4649b934ca495991b7852b855 and
bytes 0. -/
theorem empty_file_digest (prog : String) (env : HashEnv) (h1 : env.ctxNewOk = true)
    (h2 : env.initOk = true) (h3 : env.finalOk = true) (h4 : env.finalLen = 32) :
    sfd_sha256_file false false false ⟨true, [], false⟩ env =
      ⟨0, some 0, some (sha256 []), true, true, true, true, true, true⟩ ∧
    sha256 [] = sha256EmptyDigest ∧
    cliMain prog 1 ⟨true, [], false⟩ env =
      ⟨0, "\x7b\"algorithm\":\"sha256\",\"hash\":\"e3b0c44298fc1c149afbf4c8996fb92427ae41e4649b934ca495991b7852b855\",\"bytes\":0\x7d\n", ""⟩ := by
  have hloop : readLoop env false 0 [] 0 ([] : List Nat) = .done [] 0 := by
    unfold readLoop readLoopF
    simp [SFD_BUF_SIZE]
  have hs : sfd_sha256_file false false false ⟨true, [], false⟩ env =
      ⟨0, some 0, some (sha256 []), true, true, true, true, true, true⟩ := by
    simp [sfd_sha256_file, h1, h2, h3, h4, hloop, SFD_SHA256_LEN]
  refine ⟨hs, by decide, ?_⟩
  rw [cliMain_eq_success prog ⟨true, [], false⟩ env (by rw [hs]), hs]
  decide

theorem empty_file_digest_witness :
    sfd_sha256_file false false false ⟨true, [], false⟩ envOk =
      ⟨0, some 0, some (sha256 []), true, true, true, true, true, true⟩ :=
  (empty_file_digest "sfd" envOk rfl rfl rfl rfl).1

/-- C8: every failure of the digest primitive yields the HashingError code
3: context-allocation failure, initialization failure, an update failure,
a finalization failure, or a finalized output length other than 32. -/
theorem hashing_error_paths (file : FileModel) (env : HashEnv) :
    (file.openOk = true → env.ctxNewOk = false →
      (sfd_sha256_file false false false file env).rc = 3) ∧
    (file.openOk = true → env.ctxNewOk = true → env.initOk = false →
      (sfd_sha256_file false false false file env).rc = 3) ∧
    (file.openOk = true → env.ctxNewOk = true → env.initOk = true →
      env.updateOk 0 = false → file.content ≠ [] →
      (sfd_sha256_file false false false file env).rc = 3) ∧
    (file.openOk = true → env.ctxNewOk = true → env.initOk = true → file.readErr = false →
      (∀ j, env.updateOk j = true) → env.finalOk = false →
      (sfd_sha256_file false false false file env).rc = 3) ∧
    (file.openOk = true → env.ctxNewOk = true → env.initOk = true → file.readErr = false →
      (∀ j, env.updateOk j = true) → env.finalOk = true → env.finalLen ≠ 32 →
      (sfd_sha256_file false false false file env).rc = 3) := by
  refine ⟨fun ho hc => ?_, fun ho hc hi => ?_, fun ho hc hi hu hne => ?_,
    fun ho hc hi hre hu hf => ?_, fun ho hc hi hre hu hf hl => ?_⟩
  · simp [sfd_sha256_file, ho, hc]
  · simp [sfd_sha256_file, ho, hc, hi]
  · have hloop := readLoop_update_fail env file.readErr 0 [] 0 file.content hu hne
    simp [sfd_sha256_file, ho, hc, hi, hloop]
  · have hloop := readLoop_complete env 0 [] 0 file.content hu
    simp [sfd_sha256_file, ho, hc, hi, hre, hloop, hf]
  · have hloop := readLoop_complete env 0 [] 0 file.content hu
    simp [sfd_sha256_file, ho, hc, hi, hre, hloop, hf, hl, SFD_SHA256_LEN]

theorem hashing_error_paths_witness :
    (sfd_sha256_file false false false ⟨true, [], false⟩
      ⟨false, true, fun _ => true, true, 32⟩).rc = 3 :=
  (hashing_error_paths ⟨true, [], false⟩ ⟨false, true, fun _ => true, true, 32⟩).1 rfl rfl

/-- C9: on every exit path reached after the file is opened and the digest
context is acquired, the context is released and the file is closed before
the function returns. -/
theorem resources_released (pN hN bN : Bool) (file : FileModel) (env : HashEnv)
    (hopen : (sfd_sha256_file pN hN bN file env).fileOpened = true)
    (hctx : (sfd_sha256_file pN hN bN file env).ctxAcquired = true) :
    (sfd_sha256_file pN hN bN file env).ctxFreed = true ∧
    (sfd_sha256_file pN hN bN file env).fileClosed = true := by
  rcases hl : readLoop env file.readErr 0 [] 0 file.content with ⟨fed, cnt⟩ | ⟨rc, fed, cnt⟩ <;>
    simp only [sfd_sha256_file, hl] at hopen hctx ⊢ <;>
    split_ifs at hopen hctx ⊢ <;> simp_all

theorem resources_released_witness :
    (sfd_sha256_file false false false ⟨true, [], false⟩ envOk).ctxFreed = true ∧
    (sfd_sha256_file false false false ⟨true, [], false⟩ envOk).fileClosed = true :=
  resources_released false false false ⟨true, [], false⟩ envOk (by decide) (by decide)

/-- C10: a NULL path, out_hash or out_bytes pointer makes `sfd_sha256_file`
return 1 immediately, without opening the file, acquiring a digest context
or writing through any pointer; and the CLI maps that return value (non-zero
and not 2) to `Hashing error` with exit status 3, not to the usage status 1. -/
theorem null_pointer_guard (pN hN bN : Bool) (file : FileModel) (env : HashEnv)
    (h : (pN || hN || bN) = true) :
    sfd_sha256_file pN hN bN file env =
      ⟨1, none, none, false, false, false, false, false, false⟩ ∧
    cliErrorBranch 1 = ⟨3, "", "Hashing error\n"⟩ := by
  constructor
  · simp [sfd_sha256_file, h]
  · decide

theorem null_pointer_guard_witness :
    sfd_sha256_file true false false ⟨true, [], false⟩ envOk =
      ⟨1, none, none, false, false, false, false, false, false⟩ :=
  (null_pointer_guard true false false ⟨true, [], false⟩ envOk rfl).1

end SFD
